import Mathlib

/-!
Verification development for the Blog Summarizer single-page app
(`src/src/App.tsx`).  The React component `BlogSummarizer` is shallowly
embedded: its pure computations become Lean functions, the two network
calls become explicit outcome values supplied by a `FetchEnv`, and the
observable behaviour of `handleSubmit` becomes a pure function from the
environment and the component state to the final component state plus a
trace of UI/network events.
-/

namespace BlogApp

/-! ## JS string primitives used by the component -/

/-- Character class of JavaScript `String.prototype.trim` (ECMAScript
WhiteSpace and LineTerminator code points). -/
def jsIsWhiteSpace (c : Char) : Bool :=
  c == ' ' || c == '\t' || c == '\n' || c == '\r' || c == '\x0B' || c == '\x0C' ||
  c == ' ' || c == ' ' || c == ' ' || c == ' ' || c == ' ' ||
  c == ' ' || c == ' ' || c == ' ' || c == ' ' || c == ' ' ||
  c == ' ' || c == ' ' || c == ' ' || c == ' ' || c == ' ' ||
  c == ' ' || c == ' ' || c == '　' || c == '﻿'

/-- Model of JavaScript `s.trim()`: drop leading and trailing JS whitespace. -/
def jsTrim (s : String) : String :=
  String.mk (((s.toList.dropWhile jsIsWhiteSpace).reverse.dropWhile jsIsWhiteSpace).reverse)

/-- Model of JavaScript `s.split(' ')` on the character list: split at every
occurrence of the single space character; the empty string yields one empty
field, exactly as in JS. -/
def splitChars : List Char → List (List Char)
  | [] => [[]]
  | c :: rest =>
    if c == ' ' then [] :: splitChars rest
    else
      match splitChars rest with
      | h :: t => (c :: h) :: t
      | [] => [[c]]

/-- `summary.split(' ').length` from `App.tsx` line 99. -/
def wordCount (s : String) : Nat := (splitChars s.toList).length

/-- `Math.ceil(summary.split(' ').length / 200)` from `App.tsx` line 100,
with the exact ceiling of the rational quotient written in natural-number
arithmetic. -/
def readingTimeOf (s : String) : Nat := (wordCount s + 199) / 200

/-! ## Model of the WHATWG URL constructor (`new URL(string)`)

`isValidUrl` in `App.tsx` (lines 128-135) delegates entirely to the host
platform's `new URL(string)` constructor.  The fragment of the WHATWG basic
URL parser relevant to the claims is modelled here: input stripping, scheme
parsing, the special-scheme/non-special-scheme split, authority and host
parsing (with the forbidden-host-code-point check and port validation).
Approximations, none of which affect the claims settled below: IDNA
domain-to-ASCII, percent-decoding of hosts, and full IPv6/IPv4 address
validation are not performed (a bracketed host is accepted whenever the
brackets are well formed). -/

def isC0OrSpace (c : Char) : Bool := c.toNat ≤ 0x20

def isTabOrNewline (c : Char) : Bool := c == '\t' || c == '\n' || c == '\r'

def isAsciiAlpha (c : Char) : Bool :=
  ('a' ≤ c && c ≤ 'z') || ('A' ≤ c && c ≤ 'Z')

def isSchemeChar (c : Char) : Bool :=
  isAsciiAlpha c || c.isDigit || c == '+' || c == '-' || c == '.'

def isSlash (c : Char) : Bool := c == '/' || c == '\\'

/-- Characters that terminate the authority component. For special URLs a
backslash also terminates it. -/
def isAuthorityEndChar (special : Bool) (c : Char) : Bool :=
  c == '/' || c == '?' || c == '#' || (special && c == '\\')

/-- Forbidden host code points of the URL Standard (tabs and newlines have
already been removed from the input when this is consulted). -/
def isForbiddenHostChar (c : Char) : Bool :=
  c == '\x00' || c == '\t' || c == '\n' || c == '\r' || c == ' ' || c == '#' ||
  c == '/' || c == ':' || c == '<' || c == '>' || c == '?' || c == '@' ||
  c == '[' || c == '\\' || c == ']' || c == '^' || c == '|'

/-- Remove leading and trailing C0-control-or-space characters (step 1 of the
basic URL parser). -/
def stripC0Space (l : List Char) : List Char :=
  ((l.dropWhile isC0OrSpace).reverse.dropWhile isC0OrSpace).reverse

/-- Remove all ASCII tab and newline characters (step 2 of the basic URL
parser). -/
def removeTabNL (l : List Char) : List Char :=
  l.filter (fun c => !(isTabOrNewline c))

/-- Scheme parsing: an ASCII alpha followed by scheme characters, then a
colon; returns the scheme characters and the remainder after the colon. -/
def splitScheme (cs : List Char) : Option (List Char × List Char) :=
  match cs with
  | [] => none
  | c :: _ =>
    if isAsciiAlpha c then
      match cs.dropWhile isSchemeChar with
      | ':' :: rest => some (cs.takeWhile isSchemeChar, rest)
      | _ => none
    else none

/-- Port validation: nothing, or a colon followed by only digits whose value
fits in 16 bits. -/
def parsePortTail : List Char → Bool
  | [] => true
  | ':' :: ds =>
      ds.all (fun c => c.isDigit) &&
      ds.foldl (fun n c => n * 10 + (c.toNat - 48)) 0 ≤ 65535
  | _ => false

/-- Host-and-port parsing on the part of the authority after the userinfo.
`lower` selects ASCII lowercasing (domains of special URLs); when
`requireNonempty` is set an empty host is a failure. -/
def parseHostPort (lower requireNonempty : Bool) (cs : List Char) : Option String :=
  match cs with
  | '[' :: rest =>
    let body := rest.takeWhile (fun c => c != ']')
    (match rest.dropWhile (fun c => c != ']') with
     | ']' :: tailPart =>
         if body.isEmpty then none
         else if parsePortTail tailPart then some (String.mk ('[' :: (body ++ [']'])))
         else none
     | _ => none)
  | _ =>
    let h := cs.takeWhile (fun c => c != ':')
    let tailPart := cs.dropWhile (fun c => c != ':')
    if h.any isForbiddenHostChar then none
    else if parsePortTail tailPart = false then none
    else if requireNonempty && h.isEmpty then none
    else some (String.mk (if lower then h.map Char.toLower else h))

/-- Portion of the authority after the last `@` (the host-and-port part); the
whole authority when there is no userinfo. -/
def afterLastAt (cs : List Char) : List Char :=
  (cs.reverse.takeWhile (fun c => c != '@')).reverse

/-- Authority parsing: split off the userinfo, then parse host and port.  A
present `@` with nothing after it is a host-missing failure. -/
def parseAuthority (lower requireNonempty : Bool) (auth : List Char) : Option String :=
  let hp := afterLastAt auth
  if auth.contains '@' && hp.isEmpty then none
  else parseHostPort lower requireNonempty hp

def isSpecialNonFileScheme (s : String) : Bool :=
  s == "http" || s == "https" || s == "ws" || s == "wss" || s == "ftp"

/-- Components of a parsed URL relevant to the claims. `host = none` models a
null host (opaque-path URLs such as `mailto:` and path-only `file:`/
non-special URLs). -/
structure URLRecord where
  scheme : String
  host : Option String
deriving DecidableEq, Repr

/-- Model of `new URL(input)` with no base: `some` on success, `none` when the
constructor would throw. -/
def jsURLParse (input : String) : Option URLRecord :=
  let cs := removeTabNL (stripC0Space input.toList)
  match splitScheme cs with
  | none => none
  | some (schemeCs, rest) =>
    let scheme := String.mk (schemeCs.map Char.toLower)
    if scheme == "file" then
      match rest with
      | s1 :: s2 :: r =>
        if isSlash s1 && isSlash s2 then
          match parseAuthority true false (r.takeWhile (fun c => !(isAuthorityEndChar true c))) with
          | some h => some ⟨scheme, some (if h == "localhost" then "" else h)⟩
          | none => none
        else some ⟨scheme, none⟩
      | _ => some ⟨scheme, none⟩
    else if isSpecialNonFileScheme scheme then
      match parseAuthority true true
          ((rest.dropWhile isSlash).takeWhile (fun c => !(isAuthorityEndChar true c))) with
      | some h => some ⟨scheme, some h⟩
      | none => none
    else
      match rest with
      | '/' :: '/' :: r =>
        (match parseAuthority false false (r.takeWhile (fun c => !(isAuthorityEndChar false c))) with
         | some h => some ⟨scheme, some h⟩
         | none => none)
      | _ => some ⟨scheme, none⟩

/-- `isValidUrl` from `App.tsx` lines 128-135: `new URL(string)` in a
try/catch, true exactly when the constructor does not throw. -/
def isValidUrl (s : String) : Bool := (jsURLParse s).isSome

/-! ## Title extractor (`extractTitle`, App.tsx lines 115-127)

The body of `extractTitle` performs `fetch` on the allorigins proxy, then
`response.json()`, then parses `data.contents` with `DOMParser` and reads
`doc.querySelector('title')?.textContent`.  Only `fetch` and `response.json()`
can throw inside the `try` block (`DOMParser.parseFromString` never throws),
so the outcomes of the composed network interaction are:
`fetchRejects` (the fetch promise rejects), `bodyNotJson` (a response arrived
— with HTTP ok-status recorded in `ok` — but its body fails JSON parsing),
or `parsed` (a response arrived and parsed; `titleText` is the `textContent`
of the first `title` element of the resulting document, `none` when no such
element exists).  The `ok` flag is carried to show that the code never
consults `response.ok`. -/
inductive TitleFetchWorld
  | fetchRejects
  | bodyNotJson (ok : Bool)
  | parsed (ok : Bool) (titleText : Option String)
deriving DecidableEq, Repr

/-- `extractTitle` from `App.tsx` lines 115-127.  On a throw the catch block
returns `'Blog Post'`; otherwise
`doc.querySelector('title')?.textContent || 'Untitled'` is trimmed and
returned (`||` substitutes `'Untitled'` both for a missing element and for an
empty `textContent`, since the empty string is falsy). -/
def extractTitle (w : TitleFetchWorld) : String :=
  match w with
  | .fetchRejects => "Blog Post"
  | .bodyNotJson _ => "Blog Post"
  | .parsed _ titleText =>
    jsTrim (match titleText with
            | some t => if t == "" then "Untitled" else t
            | none => "Untitled")

/-- The title-extraction call "fails" (in the sense of §4.2 of the spec: the
body of its `try` block throws) exactly in these outcomes. -/
def titleThrows : TitleFetchWorld → Bool
  | .fetchRejects => true
  | .bodyNotJson _ => true
  | .parsed _ _ => false

/-! ## Summarization adapter -/

/-- Shape of a successful summarization response (`{summary, urduSummary}`). -/
structure ScrapedData where
  summary : String
  urduSummary : String
deriving DecidableEq, Repr

/-- Modelled from the spec: the failure modes of `scrapeAndSummarize` from
`src/services/blogService`, a file imported by `App.tsx` line 52 but absent
from src/.  Per §4.3 the adapter raises a fatal error on network error,
non-2xx status, malformed JSON, or missing fields, each carrying a
human-readable message. -/
inductive SummarizeFailure
  | networkError
  | nonOkStatus (code : Nat)
  | malformedJson
  | missingFields
deriving DecidableEq, Repr

/-- Modelled from the spec: the human-readable message of each adapter
failure ("a single generic error category suffices", §4.3). -/
def SummarizeFailure.message : SummarizeFailure → String
  | .networkError => "Failed to fetch"
  | .nonOkStatus _ => "Request failed"
  | .malformedJson => "Invalid response from server"
  | .missingFields => "Invalid response from server"

/-- Outcome of the summarization round trip, supplied by the environment. -/
inductive SummarizeOutcome
  | failure (f : SummarizeFailure)
  | success (d : ScrapedData)
deriving DecidableEq, Repr

/-- A JavaScript thrown value as seen by the catch block of `handleSubmit`:
either an `Error` instance carrying a message, or any other value. -/
inductive JSThrown
  | errObj (message : String)
  | nonErrorValue
deriving DecidableEq, Repr

/-- Modelled from the spec: `scrapeAndSummarize` from `src/services/blogService`
(absent from src/).  Given the round-trip outcome it either returns the parsed
`{summary, urduSummary}` object unchanged or throws an `Error` carrying the
failure's message (§4.3: success "returns the parsed object unchanged to the
caller", failure "raises a fatal error for this submission"). -/
def scrapeAndSummarize : SummarizeOutcome → Except JSThrown ScrapedData
  | .failure f => .error (.errObj f.message)
  | .success d => .ok d

/-- `error instanceof Error ? error.message : 'Failed to process blog'` from
`App.tsx` line 108. -/
def caughtMessage : JSThrown → String
  | .errObj m => m
  | .nonErrorValue => "Failed to process blog"

/-! ## Component state, events and the submission orchestrator -/

/-- The `Summary` interface of `App.tsx` lines 54-61. -/
structure Summary where
  url : String
  title : String
  summary : String
  urduSummary : String
  wordCount : Nat
  readingTime : Nat
deriving DecidableEq, Repr

/-- The summary object built in `App.tsx` lines 94-101. -/
def mkSummaryRecord (url title : String) (d : ScrapedData) : Summary :=
  { url := url
    title := title
    summary := d.summary
    urduSummary := d.urduSummary
    wordCount := wordCount d.summary
    readingTime := readingTimeOf d.summary }

/-- The four `useState` hooks of `BlogSummarizer` (App.tsx lines 64-67). -/
structure ComponentState where
  url : String
  isLoading : Bool
  summary : Option Summary
  error : String
deriving DecidableEq, Repr

/-- Observable events emitted by one run of `handleSubmit`, in program order:
toast notifications, state-setter calls, and the start and completion of each
of the two network calls. -/
inductive Event
  | toastErrorEv (msg : String)
  | toastSuccessEv (msg : String)
  | setLoadingEv (b : Bool)
  | setErrorEv (msg : String)
  | setSummaryEv (r : Option Summary)
  | titleFetchStart
  | titleFetchEnd (title : String)
  | summarizeStart
  | summarizeEnd (ok : Bool)
deriving DecidableEq, Repr

/-- Events that are network calls. -/
def Event.isNetworkEv : Event → Bool
  | .titleFetchStart => true
  | .titleFetchEnd _ => true
  | .summarizeStart => true
  | .summarizeEnd _ => true
  | _ => false

/-- Outcomes of the two network interactions of one submission, supplied by
the environment in which `handleSubmit` runs. -/
structure FetchEnv where
  title : TitleFetchWorld
  summarize : SummarizeOutcome
deriving DecidableEq, Repr

/-- `handleSubmit` from `App.tsx` lines 69-113, as a pure function from the
fetch environment and the pre-submission component state to the final
component state and the trace of emitted events.  The guards, the setter
calls, the sequential `await` of `extractTitle` then `scrapeAndSummarize`,
the catch block and the finally block are transcribed in program order; the
function is total, modelling that no thrown error escapes the handler. -/
def handleSubmit (env : FetchEnv) (st : ComponentState) : ComponentState × List Event :=
  if jsTrim st.url = "" then
    (st, [.toastErrorEv "Please enter a blog URL"])
  else if isValidUrl st.url = false then
    (st, [.toastErrorEv "Please enter a valid URL"])
  else
    let title := extractTitle env.title
    match scrapeAndSummarize env.summarize with
    | .ok d =>
      let summaryData := mkSummaryRecord st.url title d
      ({ st with isLoading := false, summary := some summaryData, error := "" },
       [.setLoadingEv true, .setErrorEv "", .setSummaryEv none,
        .titleFetchStart, .titleFetchEnd title, .summarizeStart, .summarizeEnd true,
        .setSummaryEv (some summaryData), .toastSuccessEv "Blog summarized successfully!",
        .setLoadingEv false])
    | .error e =>
      ({ st with isLoading := false, summary := none, error := caughtMessage e },
       [.setLoadingEv true, .setErrorEv "", .setSummaryEv none,
        .titleFetchStart, .titleFetchEnd title, .summarizeStart, .summarizeEnd false,
        .setErrorEv (caughtMessage e), .toastErrorEv "Failed to process blog",
        .setLoadingEv false])

/-- The spec's four-way `RequestState`, derived from the hook state exactly as
the render tree consumes it: the loading card when `isLoading`, the results
cards when `summary` is set, the error alert when `error` is non-empty. -/
inductive RequestState
  | idle
  | loading
  | success (r : Summary)
  | failed (msg : String)
deriving DecidableEq, Repr

/-- View of a `ComponentState` as a `RequestState`. -/
def requestState (st : ComponentState) : RequestState :=
  if st.isLoading then .loading
  else
    match st.summary with
    | some r => .success r
    | none => if st.error = "" then .idle else .failed st.error

/-! ## Clipboard copy actions (App.tsx lines 302-305, 336-340, 351-354) -/

/-- Text placed on the clipboard by the Copy Summary button. -/
def copySummaryClipboardText (r : Summary) : String := r.summary

/-- Text placed on the clipboard by the Copy Full Summary button
(template literal with the `Blog Summary` header and a blank line). -/
def copyFullSummaryClipboardText (r : Summary) : String :=
  "Blog Summary\n\n" ++ r.summary

/-- Text placed on the clipboard by the Copy Urdu Translation button. -/
def copyUrduClipboardText (r : Summary) : String := r.urduSummary

/-! ## Definition taken from the spec's words, for comparison (claim C2) -/

/-- Token counter: number of maximal runs of non-whitespace characters. -/
def countTokensAux : Bool → List Char → Nat
  | _, [] => 0
  | inTok, c :: rest =>
    if c.isWhitespace then countTokensAux false rest
    else (if inTok then 0 else 1) + countTokensAux true rest

/-- Stated from the spec's words, for comparison with `wordCount`:
"whitespace-token count of summary" — the number of whitespace-separated
tokens of the string. -/
def whitespaceTokenCount (s : String) : Nat := countTokensAux false s.toList

/-- A concrete 600-word summary: 600 copies of `w` joined by single spaces. -/
def summary600 : String :=
  String.mk ((List.replicate 599 ['w', ' ']).flatten ++ ['w'])

/-! ## Helper lemmas -/

lemma mk_cons_ne_empty (c : Char) (l : List Char) : String.mk (c :: l) ≠ "" := by
  intro h
  simpa using congrArg String.data h

lemma splitChars_ne_nil (cs : List Char) : splitChars cs ≠ [] := by
  induction cs with
  | nil => simp [splitChars]
  | cons c rest ih =>
    simp only [splitChars]
    split
    · simp
    · split <;> simp

lemma splitChars_length (cs : List Char) :
    (splitChars cs).length = cs.count ' ' + 1 := by
  induction cs with
  | nil => simp [splitChars]
  | cons c rest ih =>
    by_cases h : c = ' '
    · subst h
      simp [splitChars, List.count_cons, ih]
    · cases hs : splitChars rest with
      | nil => exact absurd hs (splitChars_ne_nil rest)
      | cons hh tt =>
        have hb : (c == ' ') = false := by simp [h]
        rw [hs] at ih
        simp only [splitChars, hb, Bool.false_eq_true, if_false, hs,
          List.length_cons, List.count_cons] at ih ⊢
        simp [h, ← ih]

lemma wordCount_eq_count_space (s : String) :
    wordCount s = s.toList.count ' ' + 1 := splitChars_length s.toList

lemma mem_of_dropWhile {p : Char → Bool} {l : List Char} {c : Char}
    (h : c ∈ l.dropWhile p) : c ∈ l := by
  induction l with
  | nil => simp at h
  | cons a t ih =>
    rw [List.dropWhile_cons] at h
    split at h
    · exact List.mem_cons_of_mem _ (ih h)
    · exact h

lemma mem_of_stripC0Space {c : Char} {l : List Char} (h : c ∈ stripC0Space l) :
    c ∈ l := by
  unfold stripC0Space at h
  rw [List.mem_reverse] at h
  have h1 := mem_of_dropWhile h
  rw [List.mem_reverse] at h1
  exact mem_of_dropWhile h1

lemma mem_of_removeTabNL {c : Char} {l : List Char} (h : c ∈ removeTabNL l) :
    c ∈ l := List.mem_of_mem_filter h

lemma all_ws_of_jsTrim_empty {s : String} (h : jsTrim s = "") :
    ∀ c ∈ s.toList, jsIsWhiteSpace c = true := by
  intro c hc
  have hL : ((s.toList.dropWhile jsIsWhiteSpace).reverse.dropWhile jsIsWhiteSpace).reverse
      = [] := by
    simpa [jsTrim] using congrArg String.data h
  rw [List.reverse_eq_nil_iff] at hL
  have h2 : ∀ x ∈ (s.toList.dropWhile jsIsWhiteSpace).reverse, jsIsWhiteSpace x = true :=
    List.dropWhile_eq_nil_iff.mp hL
  have hsplit : c ∈ s.toList.takeWhile jsIsWhiteSpace ++ s.toList.dropWhile jsIsWhiteSpace := by
    rw [List.takeWhile_append_dropWhile]
    exact hc
  rcases List.mem_append.mp hsplit with h3 | h3
  · exact List.mem_takeWhile_imp h3
  · exact h2 c (List.mem_reverse.mpr h3)

lemma ws_not_alpha {c : Char} (h : jsIsWhiteSpace c = true) :
    isAsciiAlpha c = false := by
  simp only [jsIsWhiteSpace, Bool.or_eq_true, beq_iff_eq] at h
  rcases h with ((((((((((((((((((((((((h | h) | h) | h) | h) | h) | h) | h) | h) | h) | h) | h) | h) | h) | h) | h) | h) | h) | h) | h) | h) | h) | h) | h) | h)
  all_goals subst h
  all_goals decide

lemma splitScheme_exists_alpha {cs : List Char} {pr : List Char × List Char}
    (h : splitScheme cs = some pr) : ∃ c ∈ cs, isAsciiAlpha c = true := by
  cases cs with
  | nil => simp [splitScheme] at h
  | cons c t =>
    by_cases ha : isAsciiAlpha c = true
    · exact ⟨c, List.mem_cons_self _ _, ha⟩
    · rw [Bool.not_eq_true] at ha
      simp [splitScheme, ha] at h

lemma splitScheme_fst_ne_nil {cs : List Char} {sc rest : List Char}
    (h : splitScheme cs = some (sc, rest)) : sc ≠ [] := by
  cases cs with
  | nil => simp [splitScheme] at h
  | cons c t =>
    by_cases ha : isAsciiAlpha c = true
    · simp only [splitScheme, ha, if_true] at h
      split at h
      · obtain ⟨h1, h2⟩ := Prod.mk.injEq .. ▸ Option.some.inj h
        have hsc : isSchemeChar c = true := by
          simp [isSchemeChar, ha]
        rw [← h1, List.takeWhile_cons, hsc]
        simp
      · exact absurd h (by simp)
    · rw [Bool.not_eq_true] at ha
      simp [splitScheme, ha] at h

lemma exists_alpha_of_parse {s : String} {u : URLRecord}
    (h : jsURLParse s = some u) : ∃ c ∈ s.toList, isAsciiAlpha c = true := by
  simp only [jsURLParse] at h
  cases hsp : splitScheme (removeTabNL (stripC0Space s.toList)) with
  | none => rw [hsp] at h; simp at h
  | some pr =>
    obtain ⟨c, hc, ha⟩ := splitScheme_exists_alpha hsp
    exact ⟨c, mem_of_stripC0Space (mem_of_removeTabNL hc), ha⟩

lemma jsTrim_ne_empty_of_valid {s : String} (h : isValidUrl s = true) :
    ¬ jsTrim s = "" := by
  intro hempty
  rw [isValidUrl, Option.isSome_iff_exists] at h
  obtain ⟨u, hu⟩ := h
  obtain ⟨c, hc, ha⟩ := exists_alpha_of_parse hu
  have hw := all_ws_of_jsTrim_empty hempty c hc
  rw [ws_not_alpha hw] at ha
  exact Bool.false_ne_true ha

lemma parseHostPort_requireNonempty {lower : Bool} {cs : List Char} {s : String}
    (hp : parseHostPort lower true cs = some s) : s ≠ "" := by
  simp only [parseHostPort] at hp
  split at hp
  · split at hp
    · split at hp
      · exact absurd hp (by simp)
      · split at hp
        · rw [← Option.some.inj hp]
          exact mk_cons_ne_empty _ _
        · exact absurd hp (by simp)
    · exact absurd hp (by simp)
  · split at hp
    · exact absurd hp (by simp)
    · split at hp
      · exact absurd hp (by simp)
      · split at hp
        · exact absurd hp (by simp)
        · rename_i hne
          rw [Bool.and_eq_true] at hne
          rw [← Option.some.inj hp]
          cases he : cs.takeWhile (fun c => c != ':') with
          | nil =>
            exact absurd ⟨rfl, by simp [he]⟩ hne
          | cons a l =>
            cases lower
            · simpa using mk_cons_ne_empty a l
            · simpa using mk_cons_ne_empty (Char.toLower a) (l.map Char.toLower)

lemma parseAuthority_requireNonempty {lower : Bool} {auth : List Char} {s : String}
    (hp : parseAuthority lower true auth = some s) : s ≠ "" := by
  simp only [parseAuthority] at hp
  split at hp
  · exact absurd hp (by simp)
  · exact parseHostPort_requireNonempty hp

lemma jsURLParse_some_facts {s : String} {u : URLRecord}
    (h : jsURLParse s = some u) :
    u.scheme ≠ "" ∧
    (isSpecialNonFileScheme u.scheme = true →
      ∃ hst, u.host = some hst ∧ hst ≠ "") := by
  simp only [jsURLParse] at h
  cases hsp : splitScheme (removeTabNL (stripC0Space s.toList)) with
  | none => rw [hsp] at h; simp at h
  | some pr =>
    obtain ⟨schemeCs, rest⟩ := pr
    rw [hsp] at h
    have hne : schemeCs ≠ [] := splitScheme_fst_ne_nil hsp
    have hmkne : String.mk (schemeCs.map Char.toLower) ≠ "" := by
      cases schemeCs with
      | nil => exact absurd rfl hne
      | cons a l => simp only [List.map_cons]; exact mk_cons_ne_empty _ _
    simp only at h
    split at h
    · -- file scheme
      rename_i hfile
      rw [beq_iff_eq] at hfile
      have hfilefact : ∀ hst : Option String,
          u = ⟨String.mk (schemeCs.map Char.toLower), hst⟩ →
          u.scheme ≠ "" ∧ (isSpecialNonFileScheme u.scheme = true →
            ∃ h, u.host = some h ∧ h ≠ "") := by
        intro hst hu
        subst hu
        refine ⟨hmkne, fun hsp => ?_⟩
        have hs2 : isSpecialNonFileScheme (String.mk (schemeCs.map Char.toLower)) = true := hsp
        rw [hfile] at hs2
        exact absurd hs2 (by decide)
      split at h
      · split at h
        · split at h
          · exact hfilefact _ (Option.some.inj h).symm
          · exact absurd h (by simp)
        · exact hfilefact _ (Option.some.inj h).symm
      · exact hfilefact _ (Option.some.inj h).symm
    · split at h
      · -- special non-file scheme: host required and non-empty
        split at h
        · rename_i hok hnf hspt hauth
          have hu := (Option.some.inj h).symm
          subst hu
          exact ⟨hmkne, fun _ => ⟨_, rfl, parseAuthority_requireNonempty hauth⟩⟩
        · exact absurd h (by simp)
      · -- non-special scheme
        rename_i hfile hspec2
        have hnonspec : ∀ hst : Option String,
            u = ⟨String.mk (schemeCs.map Char.toLower), hst⟩ →
            u.scheme ≠ "" ∧ (isSpecialNonFileScheme u.scheme = true →
              ∃ h, u.host = some h ∧ h ≠ "") := by
          intro hst hu
          subst hu
          refine ⟨hmkne, fun hsp => ?_⟩
          have hs2 : isSpecialNonFileScheme (String.mk (schemeCs.map Char.toLower)) = true := hsp
          exact absurd hs2 hspec2
        split at h
        · split at h
          · exact hnonspec _ (Option.some.inj h).symm
          · exact absurd h (by simp)
        · exact hnonspec _ (Option.some.inj h).symm

lemma extractTitle_of_throws {w : TitleFetchWorld} (h : titleThrows w = true) :
    extractTitle w = "Blog Post" := by
  cases w with
  | fetchRejects => rfl
  | bodyNotJson ok => rfl
  | parsed ok t => simp [titleThrows] at h

lemma count_join_replicate (n : Nat) (l : List Char) (c : Char) :
    ((List.replicate n l).flatten).count c = n * l.count c := by
  induction n with
  | zero => simp
  | succ k ih =>
    simp [List.replicate_succ, List.count_append, ih, Nat.succ_mul]
    ring

lemma summary600_wordCount : wordCount summary600 = 600 := by
  rw [wordCount_eq_count_space]
  have h1 : summary600.toList = (List.replicate 599 ['w', ' ']).flatten ++ ['w'] := rfl
  rw [h1, List.count_append, count_join_replicate]
  decide

/-- Shape of `handleSubmit` when both guards pass and the summarization call
succeeds. -/
lemma handleSubmit_success {env : FetchEnv} {st : ComponentState} {d : ScrapedData}
    (hv : isValidUrl st.url = true) (hs : env.summarize = .success d) :
    handleSubmit env st =
      ({ st with isLoading := false
                 summary := some (mkSummaryRecord st.url (extractTitle env.title) d)
                 error := "" },
       [.setLoadingEv true, .setErrorEv "", .setSummaryEv none,
        .titleFetchStart, .titleFetchEnd (extractTitle env.title),
        .summarizeStart, .summarizeEnd true,
        .setSummaryEv (some (mkSummaryRecord st.url (extractTitle env.title) d)),
        .toastSuccessEv "Blog summarized successfully!",
        .setLoadingEv false]) := by
  have htr := jsTrim_ne_empty_of_valid hv
  simp [handleSubmit, htr, hv, hs, scrapeAndSummarize]

/-- Shape of `handleSubmit` when both guards pass and the summarization call
fails. -/
lemma handleSubmit_failure {env : FetchEnv} {st : ComponentState} {f : SummarizeFailure}
    (hv : isValidUrl st.url = true) (hf : env.summarize = .failure f) :
    handleSubmit env st =
      ({ st with isLoading := false
                 summary := none
                 error := f.message },
       [.setLoadingEv true, .setErrorEv "", .setSummaryEv none,
        .titleFetchStart, .titleFetchEnd (extractTitle env.title),
        .summarizeStart, .summarizeEnd false,
        .setErrorEv f.message,
        .toastErrorEv "Failed to process blog",
        .setLoadingEv false]) := by
  have htr := jsTrim_ne_empty_of_valid hv
  simp [handleSubmit, htr, hv, hf, scrapeAndSummarize, caughtMessage]

lemma message_ne_empty (f : SummarizeFailure) : f.message ≠ "" := by
  cases f <;> simp [SummarizeFailure.message]

/-! ## Claim theorems -/

/-- Claim C1, counterexample: when the fetched HTML has no `title` element the
extractor returns `"Untitled"`, not the fixed fallback `"Blog Post"`; and on a
non-OK HTTP response whose body still parses, it returns the page title rather
than the fallback.  This refutes the claim that every failure (including a
missing `title` element or a non-OK response) yields `"Blog Post"`. -/
theorem extractTitle_untitled_counterexample :
    extractTitle (.parsed true none) = "Untitled" ∧
    extractTitle (.parsed true none) ≠ "Blog Post" ∧
    extractTitle (.parsed false (some "Some Title")) = "Some Title" ∧
    extractTitle (.parsed false (some "Some Title")) ≠ "Blog Post" := by
  decide

/-- Claim C1 (amended): the extractor returns `"Blog Post"` exactly when the
`try` block throws (fetch rejection or a body that fails JSON parsing); when a
response parses — the HTTP ok-status is never consulted — it returns the
trimmed text of the first `title` element if that text is non-empty, and
`"Untitled"` when the element is missing or its text is empty. -/
theorem extractTitle_behaviour (ok : Bool) (t : String) :
    extractTitle .fetchRejects = "Blog Post" ∧
    extractTitle (.bodyNotJson ok) = "Blog Post" ∧
    extractTitle (.parsed ok none) = "Untitled" ∧
    extractTitle (.parsed ok (some "")) = "Untitled" ∧
    (t ≠ "" → extractTitle (.parsed ok (some t)) = jsTrim t) := by
  refine ⟨rfl, rfl, rfl, rfl, fun ht => ?_⟩
  simp [extractTitle, ht]

/-- Witness for `extractTitle_behaviour` at a concrete non-empty title. -/
theorem extractTitle_behaviour_witness :
    extractTitle (.parsed true (some "  A Title  ")) = "A Title" := by
  have h := (extractTitle_behaviour true "  A Title  ").2.2.2.2 (by decide)
  rw [h]
  decide

/-- Claim C2, counterexample: for the summary `"a\nb"` the stored `wordCount`
is 1 (the code splits on the space character only), while the
whitespace-token count of the summary is 2; the two disagree. -/
theorem wordCount_whitespace_counterexample :
    (mkSummaryRecord "http://e.com" "T" ⟨"a\nb", "u"⟩).wordCount = 1 ∧
    whitespaceTokenCount "a\nb" = 2 ∧
    (mkSummaryRecord "http://e.com" "T" ⟨"a\nb", "u"⟩).wordCount ≠
      whitespaceTokenCount "a\nb" := by
  decide

/-- Claim C2 (amended): the stored `wordCount` equals the number of fields of
the summary split on the single space character U+0020 — equivalently one more
than the number of space characters — which coincides with the
whitespace-token count only when tokens are separated by single spaces; in
particular for summary `"a b c d"` the `wordCount` equals 4. -/
theorem wordCount_space_split :
    (∀ u t d, (mkSummaryRecord u t d).wordCount = d.summary.toList.count ' ' + 1) ∧
    (∀ u t us, (mkSummaryRecord u t ⟨"a b c d", us⟩).wordCount = 4) := by
  refine ⟨fun u t d => wordCount_eq_count_space d.summary, fun u t us => ?_⟩
  show wordCount "a b c d" = 4
  decide

/-- Claim C3, counterexample: `isValidUrl` accepts `"mailto:test"`, which
parses as an absolute URL with a scheme but no host, refuting the claim that
the validator returns true only for strings with both a scheme and a host. -/
theorem isValidUrl_hostless_counterexample :
    isValidUrl "mailto:test" = true ∧
    jsURLParse "mailto:test" = some { scheme := "mailto", host := none } := by
  decide

/-- Claim C3 (amended): the validator returns true exactly when the string
parses as a well-formed absolute URL; every accepted string has a non-empty
scheme, and a (non-empty) host is guaranteed only for the special non-file
schemes (http, https, ws, wss, ftp); empty and whitespace-only input is
rejected (it cannot parse, and the submit handler's trim guard also precedes
the validator); for every string the validator rejects, `handleSubmit` leaves
the state unchanged and performs no network call. -/
theorem isValidUrl_spec :
    (∀ s, isValidUrl s = (jsURLParse s).isSome) ∧
    (∀ s u, jsURLParse s = some u → u.scheme ≠ "" ∧
      (isSpecialNonFileScheme u.scheme = true → ∃ hst, u.host = some hst ∧ hst ≠ "")) ∧
    (∀ s, jsTrim s = "" → isValidUrl s = false) ∧
    (∀ env st, isValidUrl st.url = false →
      (handleSubmit env st).1 = st ∧
      ∀ e ∈ (handleSubmit env st).2, e.isNetworkEv = false) := by
  refine ⟨fun s => rfl, fun s u h => jsURLParse_some_facts h, fun s hs => ?_,
    fun env st hv => ?_⟩
  · by_contra hvalid
    rw [Bool.not_eq_false] at hvalid
    exact jsTrim_ne_empty_of_valid hvalid hs
  · by_cases h1 : jsTrim st.url = ""
    · simp [handleSubmit, h1, Event.isNetworkEv]
    · simp [handleSubmit, h1, hv, Event.isNetworkEv]

/-- Witness for `isValidUrl_spec` at concrete inputs: the scheme of an
accepted URL is non-empty, whitespace-only input is invalid, and a rejected
string leaves the state unchanged. -/
theorem isValidUrl_spec_witness :
    ({ scheme := "http", host := some "example.com"} : URLRecord).scheme ≠ "" ∧
    isValidUrl "   " = false ∧
    (handleSubmit ⟨.fetchRejects, .failure .networkError⟩
        ⟨"not a url", false, none, ""⟩).1 = ⟨"not a url", false, none, ""⟩ :=
  ⟨(isValidUrl_spec.2.1 "http://example.com" _ (by decide)).1,
   isValidUrl_spec.2.2.1 "   " (by decide),
   (isValidUrl_spec.2.2.2 ⟨.fetchRejects, .failure .networkError⟩
      ⟨"not a url", false, none, ""⟩ (by decide)).1⟩

/-- Claim C4: when the summarization call fails, the final state has no
summary record (any previously displayed one is cleared), is not loading, and
carries the thrown error's non-empty message, so the derived request state is
`Failed`; `handleSubmit` being a total function models that the thrown error
is caught at the orchestrator boundary and does not escape. -/
theorem summarize_failure_reaches_failed (env : FetchEnv) (st : ComponentState)
    (f : SummarizeFailure) (hv : isValidUrl st.url = true)
    (hf : env.summarize = .failure f) :
    (handleSubmit env st).1.summary = none ∧
    (handleSubmit env st).1.isLoading = false ∧
    (handleSubmit env st).1.error = f.message ∧
    (handleSubmit env st).1.error ≠ "" ∧
    requestState (handleSubmit env st).1 = .failed f.message := by
  rw [handleSubmit_failure hv hf]
  refine ⟨rfl, rfl, rfl, message_ne_empty f, ?_⟩
  simp [requestState, message_ne_empty f]

/-- Witness for `summarize_failure_reaches_failed`: a failing summarization on
a valid URL, starting from a state that displays a previous record. -/
theorem summarize_failure_reaches_failed_witness :
    (handleSubmit ⟨.parsed true (some "T"), .failure .networkError⟩
        ⟨"http://example.com", false, some ⟨"u", "t", "s", "us", 1, 1⟩, ""⟩).1.summary
      = none ∧
    (handleSubmit ⟨.parsed true (some "T"), .failure .networkError⟩
        ⟨"http://example.com", false, some ⟨"u", "t", "s", "us", 1, 1⟩, ""⟩).1.isLoading
      = false ∧
    (handleSubmit ⟨.parsed true (some "T"), .failure .networkError⟩
        ⟨"http://example.com", false, some ⟨"u", "t", "s", "us", 1, 1⟩, ""⟩).1.error
      = SummarizeFailure.networkError.message ∧
    (handleSubmit ⟨.parsed true (some "T"), .failure .networkError⟩
        ⟨"http://example.com", false, some ⟨"u", "t", "s", "us", 1, 1⟩, ""⟩).1.error
      ≠ "" ∧
    requestState (handleSubmit ⟨.parsed true (some "T"), .failure .networkError⟩
        ⟨"http://example.com", false, some ⟨"u", "t", "s", "us", 1, 1⟩, ""⟩).1
      = .failed SummarizeFailure.networkError.message :=
  summarize_failure_reaches_failed _ _ _ (by decide) rfl

/-- Claim C5: when the title extraction throws but the summarization succeeds,
the submission still ends in `Success`, the displayed record's `title` is the
fixed fallback `"Blog Post"`, and no error is recorded. -/
theorem title_failure_still_success (env : FetchEnv) (st : ComponentState)
    (d : ScrapedData) (hv : isValidUrl st.url = true)
    (ht : titleThrows env.title = true) (hs : env.summarize = .success d) :
    (handleSubmit env st).1.summary = some (mkSummaryRecord st.url "Blog Post" d) ∧
    (mkSummaryRecord st.url "Blog Post" d).title = "Blog Post" ∧
    requestState (handleSubmit env st).1 =
      .success (mkSummaryRecord st.url "Blog Post" d) ∧
    (handleSubmit env st).1.error = "" := by
  rw [handleSubmit_success hv hs, extractTitle_of_throws ht]
  refine ⟨rfl, rfl, ?_, rfl⟩
  simp [requestState]

/-- Witness for `title_failure_still_success`: a rejecting title fetch with a
succeeding summarization on a valid URL. -/
theorem title_failure_still_success_witness :
    (handleSubmit ⟨.fetchRejects, .success ⟨"a b", "u"⟩⟩
        ⟨"http://example.com", false, none, ""⟩).1.summary
      = some (mkSummaryRecord "http://example.com" "Blog Post" ⟨"a b", "u"⟩) ∧
    (mkSummaryRecord "http://example.com" "Blog Post" ⟨"a b", "u"⟩).title = "Blog Post" ∧
    requestState (handleSubmit ⟨.fetchRejects, .success ⟨"a b", "u"⟩⟩
        ⟨"http://example.com", false, none, ""⟩).1
      = .success (mkSummaryRecord "http://example.com" "Blog Post" ⟨"a b", "u"⟩) ∧
    (handleSubmit ⟨.fetchRejects, .success ⟨"a b", "u"⟩⟩
        ⟨"http://example.com", false, none, ""⟩).1.error = "" :=
  title_failure_still_success _ _ _ (by decide) rfl rfl

/-- Claim C6: every record's `readingTime` is the ceiling of
`wordCount / 200` — characterized by `readingTime ≤ k ↔ wordCount ≤ 200·k`
for every `k`, which pins it as the least sufficient number of 200-word
minutes; in particular a 600-word summary yields 3 and the 4-word summary
`"a b c d"` yields 1. -/
theorem readingTime_is_ceil :
    (∀ u t d k, (mkSummaryRecord u t d).readingTime ≤ k ↔
      (mkSummaryRecord u t d).wordCount ≤ 200 * k) ∧
    (mkSummaryRecord "http://example.com" "T" ⟨summary600, "u"⟩).wordCount = 600 ∧
    (mkSummaryRecord "http://example.com" "T" ⟨summary600, "u"⟩).readingTime = 3 ∧
    (∀ u t us, (mkSummaryRecord u t ⟨"a b c d", us⟩).readingTime = 1) := by
  refine ⟨fun u t d k => ?_, ?_, ?_, fun u t us => ?_⟩
  · simp only [mkSummaryRecord, readingTimeOf]
    omega
  · simp only [mkSummaryRecord]
    exact summary600_wordCount
  · simp only [mkSummaryRecord, readingTimeOf, summary600_wordCount]
  · simp only [mkSummaryRecord, readingTimeOf]
    decide

/-- Claim C7: for every submission that passes validation, the trace of
`handleSubmit` begins — before any network event — with entering `Loading` and
clearing the prior error and prior result, then the title fetch starts and
completes before the summarization call starts (sequential, title first). -/
theorem submission_enters_loading_before_network (env : FetchEnv)
    (st : ComponentState) (hv : isValidUrl st.url = true) :
    (handleSubmit env st).2.take 6 =
      [.setLoadingEv true, .setErrorEv "", .setSummaryEv none,
       .titleFetchStart, .titleFetchEnd (extractTitle env.title),
       .summarizeStart] := by
  cases hsum : env.summarize with
  | failure f => rw [handleSubmit_failure hv hsum]; rfl
  | success d => rw [handleSubmit_success hv hsum]; rfl

/-- Witness for `submission_enters_loading_before_network` at a concrete
valid submission. -/
theorem submission_enters_loading_before_network_witness :
    (handleSubmit ⟨.parsed true (some "My Blog"), .success ⟨"a b", "u"⟩⟩
        ⟨"http://example.com", false, none, ""⟩).2.take 6 =
      [.setLoadingEv true, .setErrorEv "", .setSummaryEv none,
       .titleFetchStart,
       .titleFetchEnd (extractTitle (.parsed true (some "My Blog"))),
       .summarizeStart] :=
  submission_enters_loading_before_network
    ⟨.parsed true (some "My Blog"), .success ⟨"a b", "u"⟩⟩
    ⟨"http://example.com", false, none, ""⟩ (by decide)

/-- Claim C8: after a successful submission the displayed record holds the
response's summary and Urdu translation unchanged, so the three copy actions
place exactly the plain summary, the summary with the `Blog Summary` header
line prepended, and the plain Urdu translation on the clipboard. -/
theorem clipboard_copy_exact_texts (env : FetchEnv) (st : ComponentState)
    (d : ScrapedData) (hv : isValidUrl st.url = true)
    (hs : env.summarize = .success d) :
    ∃ r, (handleSubmit env st).1.summary = some r ∧
      copySummaryClipboardText r = d.summary ∧
      copyFullSummaryClipboardText r = "Blog Summary\n\n" ++ d.summary ∧
      copyUrduClipboardText r = d.urduSummary := by
  rw [handleSubmit_success hv hs]
  exact ⟨_, rfl, rfl, rfl, rfl⟩

/-- Witness for `clipboard_copy_exact_texts` at a concrete successful
submission. -/
theorem clipboard_copy_exact_texts_witness :
    ∃ r, (handleSubmit ⟨.parsed true (some "T"), .success ⟨"hello world", "urdu text"⟩⟩
        ⟨"http://example.com", false, none, ""⟩).1.summary = some r ∧
      copySummaryClipboardText r = "hello world" ∧
      copyFullSummaryClipboardText r = "Blog Summary\n\n" ++ "hello world" ∧
      copyUrduClipboardText r = "urdu text" :=
  clipboard_copy_exact_texts
    ⟨.parsed true (some "T"), .success ⟨"hello world", "urdu text"⟩⟩
    ⟨"http://example.com", false, none, ""⟩
    ⟨"hello world", "urdu text"⟩ (by decide) rfl

/-- Claim C9: for a summarization response whose summary is the empty string,
the record's `wordCount` is 1 (splitting the empty string on a space yields
one empty field) and its `readingTime` is 1. -/
theorem empty_summary_wordCount_one (u t us : String) :
    (mkSummaryRecord u t ⟨"", us⟩).wordCount = 1 ∧
    (mkSummaryRecord u t ⟨"", us⟩).readingTime = 1 := by
  constructor
  · simp only [mkSummaryRecord]
    decide
  · simp only [mkSummaryRecord, readingTimeOf]
    decide

/-- Claim C10: every submission that passes validation (and therefore entered
`Loading`) finishes with the loading flag false — on the success path and on
the failure path alike — and the last event of the trace is the `finally`
block's reset of the loading flag. -/
theorem loading_reset_after_submission (env : FetchEnv) (st : ComponentState)
    (hv : isValidUrl st.url = true) :
    (handleSubmit env st).1.isLoading = false ∧
    (handleSubmit env st).2.getLast? = some (.setLoadingEv false) := by
  cases hsum : env.summarize with
  | failure f => rw [handleSubmit_failure hv hsum]; exact ⟨rfl, rfl⟩
  | success d => rw [handleSubmit_success hv hsum]; exact ⟨rfl, rfl⟩

/-- Witness for `loading_reset_after_submission` on both outcome paths of a
concrete valid submission. -/
theorem loading_reset_after_submission_witness :
    (handleSubmit ⟨.fetchRejects, .failure .malformedJson⟩
        ⟨"http://example.com", true, none, ""⟩).1.isLoading = false ∧
    (handleSubmit ⟨.fetchRejects, .failure .malformedJson⟩
        ⟨"http://example.com", true, none, ""⟩).2.getLast?
      = some (.setLoadingEv false) :=
  loading_reset_after_submission _ _ (by decide)

end BlogApp
